import Mathlib

/-!
Verification of the xsh command-execution engine (src/main.c, src/shell.c)
against its natural-language specification.

The C sources are shallowly embedded: each C function relevant to the
claims becomes a Lean definition of the same name.  OS effects
(access(2), chdir(2), getcwd(3), waitpid(2), getenv(3)) are modelled by
an explicit oracle record `OSEnv`; emitted diagnostics (`print_error`)
are counted.  Machine integers stay within `Nat` range here (array
indices and counts bounded by the C constants), so `Nat` is used
directly.
-/

namespace Xsh

/-! ### Constants (shell.h) -/

def MAX_ARGS : Nat := 512
def MAX_ALIASES : Nat := 100
def EXIT_SUCCESS : Nat := 0
def EXIT_FAILURE : Nat := 1
def EXIT_NOT_FOUND : Nat := 127

/-! ### Tokenization (shell.c, parse_command)

`parse_command` in C calls `strtok(cmd, " \t\n\r")` in a loop bounded by
`*argc < MAX_ARGS - 1`, duplicating each token into the argument array
and NUL-terminating it.  `strtok` semantics: maximal runs of delimiter
characters separate tokens, so empty tokens never occur.  We model the
argument array as a `List String` (the NUL terminator is the list end).
-/

def isDelim (c : Char) : Bool :=
  c = ' ' || c = '\t' || c = '\n' || c = '\r'

/-- Split a character list into maximal runs of non-delimiter
characters (strtok semantics: runs of delimiters separate tokens, no
empty tokens).  `acc` holds the characters of the current token in
reverse. -/
def splitRuns (delim : Char → Bool) : List Char → List Char → List String
  | [], acc => if acc.isEmpty then [] else [String.mk acc.reverse]
  | c :: cs, acc =>
    if delim c then
      (if acc.isEmpty then [] else [String.mk acc.reverse]) ++ splitRuns delim cs []
    else splitRuns delim cs (c :: acc)

/-- The full token stream of a line under strtok " \t\n\r" semantics. -/
def tokenize (s : String) : List String :=
  splitRuns isDelim s.toList []

/-- The C while-loop of `parse_command`: consumes tokens while
`*argc < MAX_ARGS - 1`, i.e. while the count so far is below 511. -/
def parse_loop : List String → Nat → List String
  | [], _ => []
  | t :: ts, n => if n < MAX_ARGS - 1 then t :: parse_loop ts (n + 1) else []

/-- shell.c `parse_command`: split the line on whitespace, keeping at
most `MAX_ARGS - 1` words (the loop starts with `*argc = 0`). -/
def parse_command (s : String) : List String :=
  parse_loop (tokenize s) 0

/-! ### Alias table (shell.c, add_alias / get_alias) -/

/-- The scan-and-overwrite-or-append part of `add_alias` (the loop after
the capacity check): overwrite the value of the first entry whose name
matches, else append a fresh entry. -/
def add_alias_entries : List (String × String) → String → String → List (String × String)
  | [], name, value => [(name, value)]
  | (n, v) :: rest, name, value =>
      if n = name then (n, value) :: rest
      else (n, v) :: add_alias_entries rest name value

/-- shell.c `add_alias`: the capacity check `alias_count >= MAX_ALIASES`
comes FIRST; on failure it prints one error and returns with the table
untouched.  Returns (new table, number of diagnostics emitted). -/
def add_alias (t : List (String × String)) (name value : String) :
    List (String × String) × Nat :=
  if MAX_ALIASES ≤ t.length then (t, 1)
  else (add_alias_entries t name value, 0)

/-- shell.c `get_alias`: linear scan, first match wins. -/
def get_alias : List (String × String) → String → Option String
  | [], _ => none
  | (n, v) :: rest, name => if n = name then some v else get_alias rest name

/-! ### Job table (shell.c, add_job / update_jobs)

The C `Job` fields set by `add_job` are pid, command, running, status
(`start_time` and `cwd` are left unset by it and are not modelled). -/

structure Job where
  pid : Nat
  command : String
  status : Nat
  running : Bool
deriving Repr, DecidableEq

/-- Result of `waitpid(pid, &st, WNOHANG)` as used by `update_jobs`:
0 = still running, pid = exited (code = WEXITSTATUS), -1 = error. -/
inductive WaitRes where
  | stillRunning
  | exited (code : Nat)
  | err
deriving Repr, DecidableEq

/-- shell.c `add_job`: rejects when `job_count >= MAX_ARGS` (prints one
error, table untouched), otherwise appends a Running entry with
status 0.  Returns (new table, diagnostics emitted). -/
def add_job (jobs : List Job) (pid : Nat) (command : String) :
    List Job × Nat :=
  if MAX_ARGS ≤ jobs.length then (jobs, 1)
  else (jobs ++ [{ pid := pid, command := command, status := 0, running := true }], 0)

/-- shell.c `update_jobs`: one non-blocking (`WNOHANG`) poll per Running
job; a job whose wait returns its pid becomes not-running with the
observed exit code; `result == 0` (still running) and `result == -1`
(error) leave the entry untouched.  No entry is ever removed. -/
def update_jobs (wait : Nat → WaitRes) (jobs : List Job) : List Job :=
  jobs.map (fun j =>
    if j.running then
      match wait j.pid with
      | WaitRes.exited c => { j with status := c, running := false }
      | WaitRes.stillRunning => j
      | WaitRes.err => j
    else j)

/-! ### Shell state and OS oracle -/

structure ShellState where
  current_dir : String
  aliases : List (String × String)
  jobs : List Job
  running : Bool
deriving Repr, DecidableEq

/-- Oracle for the OS calls made by the dispatch path. -/
structure OSEnv where
  /-- `getenv("PATH")` (`none` = unset). -/
  pathVar : Option String
  /-- `getenv("HOME")` (`none` = unset). -/
  homeVar : Option String
  /-- `access(p, X_OK) == 0`. -/
  isExec : String → Bool
  /-- `chdir(p) == 0`. -/
  chdirOk : String → Bool
  /-- result of `getcwd` right after a successful `chdir(p)`
  (`none` = getcwd failed). -/
  getcwdOf : String → Option String
  /-- observed foreground status of running an executable:
  `WIFEXITED ? WEXITSTATUS : EXIT_FAILURE` after fork/execv/waitpid. -/
  runStatus : String → Nat

/-! ### Path resolution (main.c, standard_paths / find_command) -/

def standard_paths : List String :=
  ["/bin", "/sbin", "/usr/bin", "/usr/sbin", "/usr/local/bin", "~/.local/bin"]

/-- The `standard_paths[i][0] == '~'` expansion in `find_command`:
replace a leading `~` by `$HOME` when HOME is set. -/
def expand_standard (home : Option String) (p : String) : String :=
  match p.toList with
  | '~' :: rest =>
    (match home with
     | some h => h ++ String.mk rest
     | none => p)
  | _ => p

/-- The search string `find_command` builds: `$PATH` (or the default
"/bin:/usr/bin" when unset) followed by each standard path prefixed
with ":". -/
def search_path_string (env : OSEnv) : String :=
  (env.pathVar.getD "/bin:/usr/bin")
    ++ String.join ((standard_paths.map (expand_standard env.homeVar)).map
        (fun p => ":" ++ p))

/-- `strtok(path, ":")`: colon-separated fields, empty fields skipped. -/
def split_colon (s : String) : List String :=
  splitRuns (fun c => c = ':') s.toList []

/-- The directory list `find_command` walks, in order. -/
def search_dirs (env : OSEnv) : List String :=
  split_colon (search_path_string env)

/-- main.c `find_command`: a name containing '/' is tested directly for
X_OK and returned as-is; otherwise the first directory of `search_dirs`
holding an executable `dir/name` wins. -/
def find_command (env : OSEnv) (cmd : String) : Option String :=
  if cmd.toList.contains '/' then
    if env.isExec cmd then some cmd else none
  else
    (search_dirs env).findSome? (fun dir =>
      let fp := dir ++ "/" ++ cmd
      if env.isExec fp then some fp else none)

end Xsh

namespace Xsh

/-! ### Builtins (main.c) -/

/-- main.c `cmd_cd`: no argument targets `$HOME` (error if unset); one
argument targets that path; on `chdir` failure the state is unchanged
and one error is printed; on success `current_dir` is refreshed from
`getcwd` (a `getcwd` failure also reports an error and, since the C
buffer is only overwritten on success, leaves `current_dir` unchanged).
Returns (status, state, diagnostics emitted). -/
def cmd_cd (env : OSEnv) (st : ShellState) (args : List String) :
    Nat × ShellState × Nat :=
  match args[1]? with
  | none =>
    match env.homeVar with
    | none => (EXIT_FAILURE, st, 1)
    | some home =>
      if env.chdirOk home then
        match env.getcwdOf home with
        | some d => (EXIT_SUCCESS, { st with current_dir := d }, 0)
        | none => (EXIT_FAILURE, st, 1)
      else (EXIT_FAILURE, st, 1)
  | some target =>
      if env.chdirOk target then
        match env.getcwdOf target with
        | some d => (EXIT_SUCCESS, { st with current_dir := d }, 0)
        | none => (EXIT_FAILURE, st, 1)
      else (EXIT_FAILURE, st, 1)

/-- main.c `cmd_pwd` prints the cached `current_dir`, not a fresh
`getcwd`; this is the line it emits. -/
def cmd_pwd_output (st : ShellState) : String :=
  st.current_dir

/-- Split `args[1]` of the alias builtin at its first '=' (`strchr`),
if any. -/
def break_eq : List Char → Option (List Char × List Char)
  | [] => none
  | c :: rest =>
      if c = '=' then some ([], rest)
      else
        match break_eq rest with
        | some (a, b) => some (c :: a, b)
        | none => none

/-- main.c `cmd_alias`: no argument lists aliases (success); an argument
without '=' is an error; otherwise `add_alias(name, value)` (whose
capacity failure prints an error but the builtin still returns
success). -/
def cmd_alias (st : ShellState) (args : List String) :
    Nat × ShellState × Nat :=
  match args[1]? with
  | none => (EXIT_SUCCESS, st, 0)
  | some a1 =>
    match break_eq a1.toList with
    | none => (EXIT_FAILURE, st, 1)
    | some (n, v) =>
      let r := add_alias st.aliases (String.mk n) (String.mk v)
      (EXIT_SUCCESS, { st with aliases := r.1 }, r.2)

/-- main.c `execute_builtin`: dispatch on `args[0]` over the fixed
builtin names; a null `args[0]` is success; anything else returns
EXIT_NOT_FOUND so the caller falls through to the external path.
`pwd`, `clear`, `help`, `history` only write output; `exit` clears the
session-continue flag. -/
def execute_builtin (env : OSEnv) (st : ShellState) (args : List String) :
    Nat × ShellState × Nat :=
  match args with
  | [] => (EXIT_SUCCESS, st, 0)
  | name :: _ =>
    if name = "cd" then cmd_cd env st args
    else if name = "pwd" then (EXIT_SUCCESS, st, 0)
    else if name = "exit" then (EXIT_SUCCESS, { st with running := false }, 0)
    else if name = "clear" then (EXIT_SUCCESS, st, 0)
    else if name = "help" then (EXIT_SUCCESS, st, 0)
    else if name = "history" then (EXIT_SUCCESS, st, 0)
    else if name = "alias" then cmd_alias st args
    else (EXIT_NOT_FOUND, st, 0)

/-- main.c `execute_external`: resolve `args[0]`; an unresolvable name
prints "command not found" (one diagnostic) and returns 127; otherwise
fork/execv/waitpid yields the child's observed status.  Shell state is
never touched. -/
def execute_external (env : OSEnv) (st : ShellState) (args : List String) :
    Nat × ShellState × Nat :=
  match args with
  | [] => (EXIT_FAILURE, st, 0)
  | cmd :: _ =>
    match find_command env cmd with
    | none => (EXIT_NOT_FOUND, st, 1)
    | some p => (env.runStatus p, st, 0)

/-- The alias block of main.c `execute_command` (lines 294-308): when
`args[0]` names an alias, the whole argument array is freed and the
alias value alone is re-parsed — the original words after `args[0]` are
discarded, and the replacement is not looked up again. -/
def resolve_args (aliases : List (String × String)) (args : List String) :
    List String :=
  match args with
  | [] => []
  | a0 :: _ =>
    match get_alias aliases a0 with
    | some v => parse_command v
    | none => args

/-- The argument vector `execute_command` hands to the builtin/external
execution step for a given line. -/
def dispatch_args (aliases : List (String × String)) (line : String) :
    List String :=
  resolve_args aliases (parse_command line)

/-- main.c `execute_command`: empty line is success; otherwise parse,
expand a leading alias once, try the builtin table, and fall through to
the external path exactly when it returned EXIT_NOT_FOUND.  (The
`add_to_history` call is the external history collaborator and is not
modelled.)  Returns (status, state, diagnostics emitted). -/
def execute_command (env : OSEnv) (st : ShellState) (line : String) :
    Nat × ShellState × Nat :=
  if line = "" then (EXIT_SUCCESS, st, 0)
  else
    let args := dispatch_args st.aliases line
    let r1 := execute_builtin env st args
    if r1.1 = EXIT_NOT_FOUND then
      let r2 := execute_external env r1.2.1 args
      (r2.1, r2.2.1, r1.2.2 + r2.2.2)
    else r1

/-! ### Concrete inputs used to instantiate the theorems -/

/-- A 100-entry alias table: the capacity bound `MAX_ALIASES`, reached
by defining 100 distinct names. -/
def fullTable : List (String × String) :=
  (List.range 100).map (fun i => (Nat.repr i, "old"))

/-- An OS oracle with PATH and HOME unset, nothing executable and every
OS call failing. -/
def noPathEnv : OSEnv :=
  { pathVar := none, homeVar := none, isExec := fun _ => false,
    chdirOk := fun _ => false, getcwdOf := fun _ => none,
    runStatus := fun _ => 0 }

/-- An OS oracle whose PATH holds two directories, with the bare name
"x" executable in both of them. -/
def twoDirEnv : OSEnv :=
  { pathVar := some "/p1:/p2", homeVar := some "/home/u",
    isExec := fun p => p = "/p1/x" || p = "/p2/x",
    chdirOk := fun _ => true, getcwdOf := fun p => some p,
    runStatus := fun _ => 0 }

/-- An OS oracle where "/tmp" is the only valid chdir target and getcwd
echoes the target back. -/
def cdEnv : OSEnv :=
  { pathVar := none, homeVar := some "/home/u", isExec := fun _ => false,
    chdirOk := fun p => p = "/tmp", getcwdOf := fun p => some p,
    runStatus := fun _ => 0 }

/-- A fresh shell state. -/
def initState : ShellState :=
  { current_dir := "/start", aliases := [], jobs := [], running := true }

end Xsh

namespace Xsh

/-! ### Helper lemmas -/

/-- The bounded token loop of `parse_command` is `List.take` of the
remaining budget. -/
theorem parse_loop_eq_take (ts : List String) (n : Nat) :
    parse_loop ts n = ts.take (MAX_ARGS - 1 - n) := by
  induction ts generalizing n with
  | nil => simp [parse_loop]
  | cons t ts ih =>
    unfold parse_loop
    by_cases h : n < MAX_ARGS - 1
    · rw [if_pos h, ih]
      have h2 : MAX_ARGS - 1 - n = (MAX_ARGS - 1 - (n + 1)) + 1 := by omega
      rw [h2, List.take_succ_cons]
    · rw [if_neg h]
      have h2 : MAX_ARGS - 1 - n = 0 := by omega
      rw [h2, List.take_zero]

theorem parse_command_eq_take (s : String) :
    parse_command s = (tokenize s).take (MAX_ARGS - 1) := by
  unfold parse_command
  rw [parse_loop_eq_take, Nat.sub_zero]

theorem parse_command_length_le (s : String) :
    (parse_command s).length ≤ MAX_ARGS - 1 := by
  rw [parse_command_eq_take]
  rw [List.length_take]
  exact Nat.min_le_left _ _

/-- No builtin handler nor the external path ever touches the job
table: every state a dispatch step returns carries the caller's
`jobs` unchanged. -/
theorem cmd_cd_jobs (env : OSEnv) (st : ShellState) (args : List String) :
    (cmd_cd env st args).2.1.jobs = st.jobs := by
  unfold cmd_cd
  repeat' split
  all_goals rfl

theorem cmd_alias_jobs (st : ShellState) (args : List String) :
    (cmd_alias st args).2.1.jobs = st.jobs := by
  unfold cmd_alias
  repeat' split
  all_goals rfl

theorem execute_builtin_jobs (env : OSEnv) (st : ShellState) (args : List String) :
    (execute_builtin env st args).2.1.jobs = st.jobs := by
  unfold execute_builtin
  repeat' split
  all_goals first
    | rfl
    | apply cmd_cd_jobs
    | apply cmd_alias_jobs

theorem execute_external_jobs (env : OSEnv) (st : ShellState) (args : List String) :
    (execute_external env st args).2.1.jobs = st.jobs := by
  unfold execute_external
  repeat' split
  all_goals rfl

theorem execute_command_jobs (env : OSEnv) (st : ShellState) (line : String) :
    (execute_command env st line).2.1.jobs = st.jobs := by
  unfold execute_command
  by_cases h : line = ""
  · rw [if_pos h]
  · rw [if_neg h]
    by_cases h2 : (execute_builtin env st (dispatch_args st.aliases line)).1 = EXIT_NOT_FOUND
    · simp only [h2, if_pos]
      rw [execute_external_jobs]
      exact execute_builtin_jobs env st (dispatch_args st.aliases line)
    · simp only [if_neg h2]
      exact execute_builtin_jobs env st (dispatch_args st.aliases line)

end Xsh

namespace Xsh

/-! ### Claim theorems -/

/-- C10: for every input line the parsed word sequence is exactly the
first `MAX_ARGS - 1 = 511` whitespace tokens of the line — words past
the 511th are dropped (no error path exists in the loop) — its length
never exceeds 511, and the argument vector the dispatcher hands to
builtins and external commands (after the one-shot alias step) also
never exceeds 511 words.  The C array's NUL terminator is the list
end in this model. -/
theorem parse_command_truncates_at_511 (s : String)
    (aliases : List (String × String)) :
    parse_command s = (tokenize s).take 511 ∧
    (parse_command s).length ≤ 511 ∧
    (dispatch_args aliases s).length ≤ 511 := by
  refine ⟨parse_command_eq_take s, parse_command_length_le s, ?_⟩
  unfold dispatch_args resolve_args
  split
  · simp
  · split
    · exact parse_command_length_le _
    · exact parse_command_length_le s

/-- C1 counterexample: the claim says tokenizing "ls -la > out.txt"
yields words ["ls", "-la"] with the redirection pair consumed; in the
code `parse_command` is a plain whitespace split, so ">" and "out.txt"
stay in the word sequence (and hence in the argument vector). -/
theorem redirection_line_words_cex :
    parse_command "ls -la > out.txt" = ["ls", "-la", ">", "out.txt"] ∧
    dispatch_args [] "ls -la > out.txt" = ["ls", "-la", ">", "out.txt"] ∧
    ¬ parse_command "ls -la > out.txt" = ["ls", "-la"] := by
  decide

/-- C1 amended: none of the redirection tokens <, >, >>, 2>, 2>> is
recognized by the parser; each remains an ordinary word, nothing is
consumed, and the full token list reaches the execution step as the
argument vector. -/
theorem redirection_tokens_are_plain_words :
    parse_command "ls -la > out.txt" = ["ls", "-la", ">", "out.txt"] ∧
    parse_command "cat < in.txt" = ["cat", "<", "in.txt"] ∧
    parse_command "ls >> log.txt" = ["ls", ">>", "log.txt"] ∧
    parse_command "prog 2> err.txt" = ["prog", "2>", "err.txt"] ∧
    parse_command "prog 2>> err.txt" = ["prog", "2>>", "err.txt"] ∧
    dispatch_args [] "ls -la > out.txt" = ["ls", "-la", ">", "out.txt"] := by
  decide

/-- C2 counterexample: the claim says tokenizing "sleep 5 &" yields
words ["sleep", "5"] with background = true; in the code the trailing
"&" is an ordinary word and no background flag exists on the executed
path. -/
theorem background_line_words_cex :
    parse_command "sleep 5 &" = ["sleep", "5", "&"] ∧
    ¬ parse_command "sleep 5 &" = ["sleep", "5"] := by
  decide

/-- C2 amended: a trailing standalone "&" is not recognized: it is
neither consumed nor removed from the words, it reaches the argument
vector, and command execution never records a background job — the job
table is untouched by every dispatched line. -/
theorem background_marker_not_recognized :
    parse_command "sleep 5 &" = ["sleep", "5", "&"] ∧
    dispatch_args [] "sleep 5 &" = ["sleep", "5", "&"] ∧
    ∀ (env : OSEnv) (st : ShellState) (line : String),
      (execute_command env st line).2.1.jobs = st.jobs := by
  refine ⟨by decide, by decide, ?_⟩
  intro env st line
  exact execute_command_jobs env st line

/-- C3: registering a background job appends exactly one Running entry
(status 0) to the job table; after the process terminates (the WNOHANG
poll reports an exit with code `c`) a single reaper sweep turns exactly
that entry into a non-running one carrying code `c`, and `update_jobs`
never removes or adds entries (it never blocks: each poll is a single
WNOHANG call modelled by the `wait` oracle). -/
theorem background_job_lifecycle (jobs : List Job) (pid : Nat) (cmd : String)
    (wait : Nat → WaitRes) (c : Nat)
    (hcap : jobs.length < MAX_ARGS)
    (hw : wait pid = WaitRes.exited c) :
    (add_job jobs pid cmd).1
        = jobs ++ [{ pid := pid, command := cmd, status := 0, running := true }] ∧
    (add_job jobs pid cmd).1.length = jobs.length + 1 ∧
    update_jobs wait (add_job jobs pid cmd).1
        = update_jobs wait jobs
            ++ [{ pid := pid, command := cmd, status := c, running := false }] ∧
    (∀ (w : Nat → WaitRes) (js : List Job), (update_jobs w js).length = js.length) := by
  have hadd : (add_job jobs pid cmd).1
      = jobs ++ [{ pid := pid, command := cmd, status := 0, running := true }] := by
    unfold add_job
    rw [if_neg (by omega)]
  refine ⟨hadd, ?_, ?_, ?_⟩
  · rw [hadd]; simp
  · rw [hadd]
    unfold update_jobs
    rw [List.map_append]
    congr 1
    simp [hw]
  · intro w js
    unfold update_jobs
    rw [List.length_map]

/-- Witness for C3 at a concrete instance: an empty job table, pid 42
running "sleep 5", whose wait poll reports exit code 0. -/
theorem background_job_lifecycle_witness :
    ([] : List Job).length < MAX_ARGS ∧
    (add_job [] 42 "sleep 5").1
      = [{ pid := 42, command := "sleep 5", status := 0, running := true }] ∧
    update_jobs (fun _ => WaitRes.exited 0) (add_job [] 42 "sleep 5").1
      = [{ pid := 42, command := "sleep 5", status := 0, running := false }] := by
  refine ⟨by decide, ?_, ?_⟩
  · have h := (background_job_lifecycle [] 42 "sleep 5" (fun _ => WaitRes.exited 0) 0
      (by decide) rfl).1
    simpa using h
  · have h := (background_job_lifecycle [] 42 "sleep 5" (fun _ => WaitRes.exited 0) 0
      (by decide) rfl).2.2.1
    simpa using h

/-- C4: when the first word of a dispatched line names an alias, the
whole argument vector is replaced by the re-tokenized alias value
alone; the original words after the first are discarded, so with
alias ll := "ls -la" the line "ll extra" runs ls with the single
argument -la. -/
theorem alias_expansion_discards_extra_words
    (aliases : List (String × String)) (a0 : String) (rest : List String)
    (v : String) (h : get_alias aliases a0 = some v) :
    resolve_args aliases (a0 :: rest) = parse_command v ∧
    resolve_args aliases (a0 :: rest) = resolve_args aliases [a0] ∧
    dispatch_args [("ll", "ls -la")] "ll extra" = ["ls", "-la"] := by
  refine ⟨?_, ?_, by decide⟩
  · simp only [resolve_args, h]
  · simp only [resolve_args, h]

/-- Witness for C4: the documented ll example, extra word discarded. -/
theorem alias_expansion_discards_extra_words_witness :
    get_alias [("ll", "ls -la")] "ll" = some "ls -la" ∧
    resolve_args [("ll", "ls -la")] ["ll", "extra"] = ["ls", "-la"] := by
  refine ⟨by decide, ?_⟩
  have h := (alias_expansion_discards_extra_words [("ll", "ls -la")] "ll" ["extra"]
    "ls -la" (by decide)).1
  exact h.trans (by decide)

/-- C5: a first word that is no alias, no builtin and unresolvable by
the path search makes the dispatch return EXIT_NOT_FOUND = 127 with
exactly one diagnostic and the shell state — current directory, alias
table, job table and the session-continue flag — unchanged, so the
interactive loop carries on. -/
theorem command_not_found_no_side_effects
    (env : OSEnv) (st : ShellState) (line w0 : String) (rest : List String)
    (hparse : parse_command line = w0 :: rest)
    (halias : get_alias st.aliases w0 = none)
    (hnb : w0 ∉ (["cd", "pwd", "exit", "clear", "help", "history", "alias"] : List String))
    (hfind : find_command env w0 = none) :
    execute_command env st line = (EXIT_NOT_FOUND, st, 1) := by
  have hne : line ≠ "" := by
    intro h0
    rw [h0] at hparse
    simp [parse_command, tokenize, splitRuns, parse_loop] at hparse
  simp only [List.mem_cons, List.not_mem_nil, or_false, not_or] at hnb
  obtain ⟨hcd, hpwd, hexit, hclear, hhelp, hhist, hali⟩ := hnb
  have hargs : dispatch_args st.aliases line = w0 :: rest := by
    unfold dispatch_args
    rw [hparse]
    simp only [resolve_args, halias]
  have hbuiltin : execute_builtin env st (w0 :: rest) = (EXIT_NOT_FOUND, st, 0) := by
    simp only [execute_builtin]
    rw [if_neg hcd, if_neg hpwd, if_neg hexit, if_neg hclear, if_neg hhelp,
      if_neg hhist, if_neg hali]
  unfold execute_command
  rw [if_neg hne]
  simp only [hargs, hbuiltin]
  simp [execute_external, hfind]

/-- Witness for C5: "nosuchcmd" in an environment where nothing
resolves, from the fresh state. -/
theorem command_not_found_no_side_effects_witness :
    parse_command "nosuchcmd" = ["nosuchcmd"] ∧
    execute_command noPathEnv initState "nosuchcmd" = (EXIT_NOT_FOUND, initState, 1) := by
  refine ⟨by decide, ?_⟩
  exact command_not_found_no_side_effects noPathEnv initState "nosuchcmd" "nosuchcmd" []
    (by decide) (by decide) (by decide) (by decide)

/-- C6: alias expansion happens at most once per dispatched command:
the replacement is exactly the re-tokenized alias value, whose own
first word is never looked up again, so a := "b" with b := "c"
dispatches to b (no transitive expansion) and a self-referential alias
x := "x" cannot recurse. -/
theorem alias_expansion_single_pass
    (aliases : List (String × String)) (a0 : String) (rest : List String)
    (v : String) (h : get_alias aliases a0 = some v) :
    resolve_args aliases (a0 :: rest) = parse_command v ∧
    dispatch_args [("a", "b"), ("b", "c")] "a" = ["b"] ∧
    dispatch_args [("x", "x")] "x" = ["x"] := by
  refine ⟨?_, by decide, by decide⟩
  simp only [resolve_args, h]

/-- Witness for C6: the chained-alias table, expansion stops after one
step. -/
theorem alias_expansion_single_pass_witness :
    get_alias [("a", "b"), ("b", "c")] "a" = some "b" ∧
    resolve_args [("a", "b"), ("b", "c")] ["a"] = ["b"] := by
  refine ⟨by decide, ?_⟩
  have h := (alias_expansion_single_pass [("a", "b"), ("b", "c")] "a" [] "b"
    (by decide)).1
  exact h.trans (by decide)

/-- The overwrite loop of add_alias on a table containing the name:
names are preserved, the length is unchanged and the looked-up value is
the new one. -/
theorem add_alias_entries_overwrite (t : List (String × String))
    (name value : String) (h : name ∈ t.map Prod.fst) :
    (add_alias_entries t name value).map Prod.fst = t.map Prod.fst ∧
    (add_alias_entries t name value).length = t.length ∧
    get_alias (add_alias_entries t name value) name = some value := by
  induction t with
  | nil => simp at h
  | cons p rest ih =>
    obtain ⟨n, v⟩ := p
    by_cases hn : n = name
    · subst hn
      simp [add_alias_entries, get_alias]
    · have hmem : name ∈ rest.map Prod.fst := by
        rcases List.mem_cons.mp h with h1 | h1
        · exact absurd h1.symm hn
        · exact h1
      obtain ⟨h1, h2, h3⟩ := ih hmem
      simp [add_alias_entries, hn, get_alias, h1, h2, h3]

/-- The overwrite loop of add_alias on a table not containing the name
appends a fresh entry. -/
theorem add_alias_entries_not_mem (t : List (String × String))
    (name value : String) (h : name ∉ t.map Prod.fst) :
    add_alias_entries t name value = t ++ [(name, value)] := by
  induction t with
  | nil => rfl
  | cons p rest ih =>
    obtain ⟨n, v⟩ := p
    have hn : ¬ n = name := fun he => h (by simp [he])
    have h2 : name ∉ rest.map Prod.fst := fun hm => h (by simp [hm])
    simp [add_alias_entries, hn, ih h2]

/-- C7 amended: the capacity check of add_alias precedes the existence
scan, so at full capacity the call fails (one diagnostic, table fully
unchanged) even when the name is already present; below capacity a
present name is overwritten in place (names, order and count
unchanged, last write wins, no diagnostic) and an absent name is
appended. -/
theorem add_alias_capacity_check_precedes_overwrite
    (t : List (String × String)) (name value : String) :
    (MAX_ALIASES ≤ t.length → add_alias t name value = (t, 1)) ∧
    (t.length < MAX_ALIASES → name ∈ t.map Prod.fst →
        ((add_alias t name value).1.map Prod.fst = t.map Prod.fst ∧
         (add_alias t name value).1.length = t.length ∧
         get_alias (add_alias t name value).1 name = some value ∧
         (add_alias t name value).2 = 0)) ∧
    (t.length < MAX_ALIASES → name ∉ t.map Prod.fst →
        add_alias t name value = (t ++ [(name, value)], 0)) := by
  refine ⟨?_, ?_, ?_⟩
  · intro h
    unfold add_alias
    rw [if_pos h]
  · intro hlen hmem
    have haa : add_alias t name value = (add_alias_entries t name value, 0) := by
      unfold add_alias
      rw [if_neg (by omega)]
    obtain ⟨h1, h2, h3⟩ := add_alias_entries_overwrite t name value hmem
    rw [haa]
    exact ⟨h1, h2, h3, rfl⟩
  · intro hlen hmem
    have haa : add_alias t name value = (add_alias_entries t name value, 0) := by
      unfold add_alias
      rw [if_neg (by omega)]
    rw [haa, add_alias_entries_not_mem t name value hmem]

set_option maxRecDepth 40000 in
/-- C7 counterexample: the claim promises that a present name is
always overwritten; on the 100-entry table (reachable by 100 alias
definitions) the name "0" is present, yet add_alias rejects the call
(capacity check first) and the old value survives. -/
theorem alias_overwrite_at_capacity_cex :
    fullTable.length = 100 ∧
    get_alias fullTable "0" = some "old" ∧
    (List.range 100).foldl (fun t i => (add_alias t (Nat.repr i) "old").1) [] = fullTable ∧
    add_alias fullTable "0" "new" = (fullTable, 1) ∧
    ¬ get_alias (add_alias fullTable "0" "new").1 "0" = some "new" := by
  decide

/-- Witness for C7 amended: below capacity the value is overwritten;
at capacity the table is returned unchanged with one diagnostic. -/
theorem add_alias_capacity_check_precedes_overwrite_witness :
    ([("a", "1")] : List (String × String)).length < MAX_ALIASES ∧
    "a" ∈ ([("a", "1")] : List (String × String)).map Prod.fst ∧
    get_alias (add_alias [("a", "1")] "a" "2").1 "a" = some "2" ∧
    MAX_ALIASES ≤ fullTable.length ∧
    add_alias fullTable "a" "2" = (fullTable, 1) := by
  refine ⟨by decide, by decide, ?_, by decide, ?_⟩
  · exact ((add_alias_capacity_check_precedes_overwrite [("a", "1")] "a" "2").2.1
      (by decide) (by decide)).2.2.1
  · exact (add_alias_capacity_check_precedes_overwrite fullTable "a" "2").1 (by decide)

/-- C8: the change-directory builtin targets `$HOME` with no argument
and the given path with one; a failing chdir leaves the cached
`current_dir` untouched, reports one OS-error diagnostic and returns
failure; a successful one refreshes `current_dir` from getcwd, so the
print-working-directory builtin (which emits the cache) shows the new
directory. -/
theorem cd_updates_cached_dir (env : OSEnv) (st : ShellState)
    (args : List String) (t : String)
    (htgt : args[1]? = some t ∨ (args[1]? = none ∧ env.homeVar = some t)) :
    (env.chdirOk t = false → cmd_cd env st args = (EXIT_FAILURE, st, 1)) ∧
    (∀ d, env.chdirOk t = true → env.getcwdOf t = some d →
        cmd_cd env st args = (EXIT_SUCCESS, { st with current_dir := d }, 0) ∧
        cmd_pwd_output (cmd_cd env st args).2.1 = d) := by
  constructor
  · intro hc
    rcases htgt with h | ⟨h1, h2⟩
    · simp [cmd_cd, h, hc]
    · simp [cmd_cd, h1, h2, hc]
  · intro d hc hg
    rcases htgt with h | ⟨h1, h2⟩
    · constructor
      · simp [cmd_cd, h, hc, hg]
      · simp [cmd_cd, h, hc, hg, cmd_pwd_output]
    · constructor
      · simp [cmd_cd, h1, h2, hc, hg]
      · simp [cmd_cd, h1, h2, hc, hg, cmd_pwd_output]

/-- Witness for C8: a successful cd to "/tmp" updates the cache; a
failing cd leaves the state untouched with one diagnostic. -/
theorem cd_updates_cached_dir_witness :
    cmd_cd cdEnv initState ["cd", "/tmp"]
      = (EXIT_SUCCESS, { initState with current_dir := "/tmp" }, 0) ∧
    cmd_cd noPathEnv initState ["cd", "/nope"] = (EXIT_FAILURE, initState, 1) := by
  constructor
  · exact ((cd_updates_cached_dir cdEnv initState ["cd", "/tmp"] "/tmp"
      (Or.inl (by decide))).2 "/tmp" (by decide) (by decide)).1
  · exact (cd_updates_cached_dir noPathEnv initState ["cd", "/nope"] "/nope"
      (Or.inl (by decide))).1 (by decide)

/-- A findSome? scan skips a prefix on which the function yields
nothing. -/
theorem findSome?_skip_none {α β : Type} (f : α → Option β)
    (pre l : List α) (h : ∀ x ∈ pre, f x = none) :
    (pre ++ l).findSome? f = l.findSome? f := by
  induction pre with
  | nil => rfl
  | cons a as ih =>
    have ha : f a = none := h a (by simp)
    have h2 : ∀ x ∈ as, f x = none := fun x hx => h x (by simp [hx])
    simp [List.findSome?_cons, ha, ih h2]

/-- C9: a name with a path separator is tested directly for execute
permission and used verbatim (no search); a bare name is resolved to
`dir/name` for the first directory `d` of the concatenated search
order (the PATH variable's fields, then the fixed fallbacks with a
leading `~` expanded — the order `search_dirs` encodes) that holds an
executable candidate, regardless of later directories. -/
theorem find_command_first_match (env : OSEnv) (cmd : String) :
    (cmd.toList.contains '/' = true →
        find_command env cmd = (if env.isExec cmd then some cmd else none)) ∧
    (cmd.toList.contains '/' = false →
        ∀ (pre : List String) (d : String) (post : List String),
          search_dirs env = pre ++ d :: post →
          (∀ d2 ∈ pre, env.isExec (d2 ++ "/" ++ cmd) = false) →
          env.isExec (d ++ "/" ++ cmd) = true →
          find_command env cmd = some (d ++ "/" ++ cmd)) := by
  constructor
  · intro h
    unfold find_command
    rw [if_pos h]
  · intro h pre d post hsplit hpre hd
    unfold find_command
    rw [if_neg (by rw [h]; simp), hsplit,
      findSome?_skip_none _ pre _ (fun x hx => by simp [hpre x hx])]
    simp [List.findSome?_cons, hd]

/-- Witness for C9: in `twoDirEnv` the name "x" is executable in both
PATH directories and resolution returns the one from the first. -/
theorem find_command_first_match_witness :
    twoDirEnv.isExec "/p1/x" = true ∧
    twoDirEnv.isExec "/p2/x" = true ∧
    find_command twoDirEnv "x" = some "/p1/x" := by
  refine ⟨by decide, by decide, ?_⟩
  have h := (find_command_first_match twoDirEnv "x").2 (by decide) [] "/p1"
    ["/p2", "/bin", "/sbin", "/usr/bin", "/usr/sbin", "/usr/local/bin",
      "/home/u/.local/bin"]
    (by decide) (fun d2 hd2 => by simp at hd2) (by decide)
  exact h.trans (by decide)

end Xsh
